import Mathlib

/-!
Verification development for the LLM Release Explorer dashboard
(`streamlit_app.py`).  The data model and every operation below are shallow
embeddings of the Python source: pandas column operations become explicit
list operations, dates become a calendar-day count, and float division
becomes exact rational division.
-/

/-- A parsed calendar date (as produced by `pd.to_datetime(..., format='%Y-%m-%d')`). -/
structure Date where
  year : Nat
  month : Nat
  day : Nat
deriving DecidableEq, Repr

/-- Gregorian leap-year test. -/
def isLeap (y : Nat) : Bool := (y % 4 == 0 && y % 100 != 0) || y % 400 == 0

/-- Number of days in a month of a given year. -/
def daysInMonth (y m : Nat) : Nat :=
  if m = 2 then (if isLeap y then 29 else 28)
  else if m = 4 ∨ m = 6 ∨ m = 9 ∨ m = 11 then 30
  else 31

/-- Decimal digit test for a character. -/
def isDigitChar (c : Char) : Bool := '0' ≤ c && c ≤ '9'

/-- Numeric value of a decimal digit character. -/
def digitVal (c : Char) : Nat := c.toNat - '0'.toNat

/-- Strict `YYYY-MM-DD` parse, mirroring
`pd.to_datetime(s, format='%Y-%m-%d', errors='coerce')`: `none` models `NaT`.
The day must exist in the given calendar month. -/
def parseDate (s : String) : Option Date :=
  match s.data with
  | [y1, y2, y3, y4, '-', m1, m2, '-', d1, d2] =>
    if (isDigitChar y1 && isDigitChar y2 && isDigitChar y3 && isDigitChar y4 &&
        isDigitChar m1 && isDigitChar m2 && isDigitChar d1 && isDigitChar d2) then
      let y := ((digitVal y1 * 10 + digitVal y2) * 10 + digitVal y3) * 10 + digitVal y4
      let m := digitVal m1 * 10 + digitVal m2
      let d := digitVal d1 * 10 + digitVal d2
      if 1 ≤ m ∧ m ≤ 12 ∧ 1 ≤ d ∧ d ≤ daysInMonth y m then some ⟨y, m, d⟩ else none
    else none
  | _ => none

/-- Days since the Unix epoch for a calendar date (the quantity behind
`(a - b).days` on pandas timestamps).  Standard civil-calendar day count;
all intermediate arithmetic is on `Nat`, so every division is a floor. -/
def Date.toDays (dt : Date) : Int :=
  let y := if dt.month ≤ 2 then dt.year - 1 else dt.year
  let era := y / 400
  let yoe := y - era * 400
  let mp := (dt.month + 9) % 12
  let doy := (153 * mp + 2) / 5 + dt.day - 1
  let doe := yoe * 365 + yoe / 4 - yoe / 100 + doy
  (era * 146097 + doe : Int) - 719468

/-- Two-digit zero-padded decimal rendering. -/
def pad2 (n : Nat) : String := if n < 10 then "0" ++ toString n else toString n

/-- Four-digit zero-padded decimal rendering. -/
def pad4 (n : Nat) : String :=
  if n < 10 then "000" ++ toString n
  else if n < 100 then "00" ++ toString n
  else if n < 1000 then "0" ++ toString n
  else toString n

/-- The `Year-Month` bucket key of a date, as produced by
`dt.to_period('M').astype(str)`: the string `YYYY-MM`. -/
def ymStr (d : Date) : String := pad4 d.year ++ "-" ++ pad2 d.month

/-- One raw record of `models.json` before normalization: `Organization`
and `Release Date` are nullable. -/
structure RawRow where
  model : String
  organization : Option String
  releaseDate : Option String
deriving DecidableEq, Repr

/-- One row of the normalized table: organization filled, date parsed,
`Year-Month` derived. -/
structure Row where
  model : String
  organization : String
  releaseDate : Date
  yearMonth : String
deriving DecidableEq, Repr

/-- One row of the pandas frame as it exists inside `load_data`, with the
nullable columns kept nullable (needed to express the `isnull()` checks the
app performs afterwards). -/
structure PDRow where
  model : String
  organization : Option String
  releaseDate : Option Date
  yearMonth : String
deriving DecidableEq, Repr

/-- The row produced for a raw record whose date parses; the `getD`
mirrors `fillna('Unknown')`, which fills only missing (null) values. -/
def normRowOf (raw : RawRow) : Row :=
  match raw.releaseDate.bind parseDate with
  | some d =>
    { model := raw.model
      organization := raw.organization.getD "Unknown"
      releaseDate := d
      yearMonth := ymStr d }
  | none =>
    { model := raw.model
      organization := raw.organization.getD "Unknown"
      releaseDate := ⟨0, 1, 1⟩
      yearMonth := "" }

/-- The normalization pipeline of `load_data` on the row level:
parse the date column, drop rows whose date fails to parse, fill missing
organizations with `"Unknown"`, derive `Year-Month`. -/
def normalizeRows (rows : List RawRow) : List Row :=
  rows.filterMap fun raw =>
    (raw.releaseDate.bind parseDate).map fun d =>
      { model := raw.model
        organization := raw.organization.getD "Unknown"
        releaseDate := d
        yearMonth := ymStr d }

/-- The same pipeline at the pandas-frame level, keeping the nullable column
types: `to_datetime(..., errors='coerce')`, then `dropna(subset=['Release
Date'])`, then `fillna('Unknown')` on `Organization`, then the `Year-Month`
column. -/
def loadFrame (rows : List RawRow) : List PDRow :=
  ((rows.map fun r =>
      ({ model := r.model
         organization := r.organization
         releaseDate := r.releaseDate.bind parseDate
         yearMonth := "" } : PDRow)).filter
    (fun r => r.releaseDate.isSome)).map
    fun r =>
      { r with
        organization := some (r.organization.getD "Unknown")
        yearMonth := (r.releaseDate.map ymStr).getD "" }

/-- Embeds `df['Organization'].isnull().sum()` as evaluated at line 307 of the app,
i.e. on the already-normalized frame. -/
def missingOrgsReported (df : List PDRow) : Nat :=
  df.countP fun r => r.organization.isNone

/-- Embeds `df['Release Date'].isnull().sum()` as evaluated at line 311 of the app,
i.e. on the already-normalized frame. -/
def missingDatesReported (df : List PDRow) : Nat :=
  df.countP fun r => r.releaseDate.isNone

/-- Count of raw input rows whose `Organization` is missing. -/
def rawMissingOrgs (rows : List RawRow) : Nat :=
  rows.countP fun r => r.organization.isNone

/-- Boolean date comparison (pandas timestamp `<=`). -/
def dateLeB (a b : Date) : Bool := a.toDays ≤ b.toDays

/-- The filter block (lines 156-159): when the multiselect is nonempty a row
must belong to a selected organization and lie in the date range; an empty
selection applies only the date-range test. -/
def filterTable (t : List Row) (selected : List String) (startD endD : Date) : List Row :=
  if selected.isEmpty then
    t.filter fun r => dateLeB startD r.releaseDate && dateLeB r.releaseDate endD
  else
    t.filter fun r =>
      decide (r.organization ∈ selected) &&
        dateLeB startD r.releaseDate && dateLeB r.releaseDate endD

/-- The distinct `Year-Month` values occurring in a table. -/
def observedMonths (t : List Row) : List String := (t.map (·.yearMonth)).dedup

/-- The distinct organizations occurring in a table. -/
def observedOrgs (t : List Row) : List String := (t.map (·.organization)).dedup

/-- Index of the frame `groupby(['Year-Month','Organization']).size().unstack(fill_value=0)`:
the cross product of the observed months and the observed organizations. -/
def monthlyKeys (t : List Row) : List (String × String) :=
  (observedMonths t).flatMap fun m => (observedOrgs t).map fun o => (m, o)

/-- The count stored in one cell of the unstacked monthly frame
(zero when no row has that month and organization). -/
def monthlyCount (t : List Row) (m o : String) : Nat :=
  t.countP fun r => r.yearMonth == m && r.organization == o

/-- Minimum of a list of integers, seeded by the head (`Series.min()`). -/
def listMinInt : List Int → Int
  | [] => 0
  | x :: xs => xs.foldl min x

/-- Maximum of a list of integers, seeded by the head (`Series.max()`). -/
def listMaxInt : List Int → Int
  | [] => 0
  | x :: xs => xs.foldl max x

/-- Embeds `df['Release Date'].max()` over the whole normalized table (line 92),
as a day count. -/
def lastReleaseDays (t : List Row) : Int :=
  listMaxInt (t.map fun r => r.releaseDate.toDays)

/-- Floor of a rational; rationals are kept normalized with positive
denominator, so flooring is the floor division `Int.fdiv` of numerator by
denominator. -/
def ratFloor (q : ℚ) : Int := Int.fdiv q.num q.den

/-- Python `int(q // 30)`, i.e. `⌊q / 30⌋`: with `q = num/den` and
`den > 0` this is exactly `num.fdiv (30 * den)`. -/
def monthsOf (q : ℚ) : Int := Int.fdiv q.num (30 * (q.den : Int))

/-- Python `int(q % 30)`. `q % 30 = q - 30 * ⌊q / 30⌋` lies in `[0, 30)`,
so truncating it is flooring it, and since `30 * ⌊q / 30⌋` is an integer,
`⌊q - 30 * ⌊q / 30⌋⌋ = ⌊q⌋ - 30 * ⌊q / 30⌋`. -/
def daysOf (q : ℚ) : Int := ratFloor q - 30 * monthsOf q

/-- Embeds `calculate_release_cycle` (lines 28-38): restrict to the company's rows,
take the span from the company's first release to the supplied
`last_release_date`, divide by the number of models (true division), and
split into 30-day months and leftover days (`int(avg // 30)`,
`int(avg % 30)`). Returns `none` when the company has at most one row. -/
def calculateReleaseCycle (t : List Row) (company : String) (lastDays : Int) :
    Option (ℚ × ℤ × ℤ) :=
  let companyRows := t.filter fun r => r.organization == company
  let numModels := companyRows.length
  if 1 < numModels then
    let firstDays := listMinInt (companyRows.map fun r => r.releaseDate.toDays)
    let totalDays : ℤ := lastDays - firstDays
    let averageCycle : ℚ := Rat.divInt totalDays (numModels : Int)
    some (averageCycle, monthsOf averageCycle, daysOf averageCycle)
  else none

/-- Organizations with more than one model in the table (lines 98-99). -/
def multiModelOrgs (t : List Row) : List String :=
  ((t.map (·.organization)).dedup).filter fun o =>
    decide (1 < t.countP fun r => r.organization == o)

/-- Embeds `df_filtered` (line 100): the table restricted to multi-model organizations. -/
def dfFiltered (t : List Row) : List Row :=
  t.filter fun r => decide (r.organization ∈ multiModelOrgs t)

/-- The distinct organizations of a table in the role of
`df_filtered['Organization'].unique()` (line 103). -/
def companiesOf (t : List Row) : List String := (t.map (·.organization)).dedup

/-- Embeds `company_cycles` (line 103) restricted to its defined entries: each
multi-model company paired with its `(average_cycle, months, days)` triple.
(`company_avg_cycles` at line 106 keeps exactly the non-`None` entries.) -/
def companyCycles (t : List Row) : List (String × (ℚ × ℤ × ℤ)) :=
  (companiesOf (dfFiltered t)).filterMap fun c =>
    (calculateReleaseCycle (dfFiltered t) c (lastReleaseDays t)).map fun v => (c, v)

/-- The per-company average-cycle column of `avg_cycles_df` (lines 106-107). -/
def companyAvgCycles (t : List Row) : List ℚ :=
  (companyCycles t).map fun p => p.2.1

/-- The unweighted mean of the per-company average cycles
(`avg_cycles_df['Average Cycle (days)'].mean()`, line 112). -/
def overallMean (t : List Row) : ℚ :=
  (companyAvgCycles t).sum / ((companyAvgCycles t).length : ℚ)

/-- The overall cycle display pair (lines 111-116): `(months, days)` from the
mean of the company averages, or `(0, 0)` when no company qualifies. -/
def overallCycle (t : List Row) : ℤ × ℤ :=
  let avgs := companyAvgCycles t
  if avgs.isEmpty then (0, 0)
  else (monthsOf (overallMean t), daysOf (overallMean t))

/-- Everything one interaction of the page computes: the cadence figures are
derived from the full table `df` (lines 92-116), the monthly aggregate from
the user-filtered table `filtered_df` (lines 156-174). -/
structure AppOutput where
  overallCycleOut : ℤ × ℤ
  companyCyclesOut : List (String × (ℚ × ℤ × ℤ))
  monthlyKeysOut : List (String × String)
  monthlyOut : List ((String × String) × Nat)
deriving DecidableEq, Repr

/-- One render pass of the page over the loaded table and the two filter
widgets, mirroring the script's dataflow. -/
def appRender (t : List Row) (selected : List String) (startD endD : Date) : AppOutput :=
  let filtered := filterTable t selected startD endD
  { overallCycleOut := overallCycle t
    companyCyclesOut := companyCycles t
    monthlyKeysOut := monthlyKeys filtered
    monthlyOut := (monthlyKeys filtered).map fun p => (p, monthlyCount filtered p.1 p.2) }

/-- A `json.JSONDecodeError`: message plus 1-based line and column. -/
structure JSONError where
  lineno : Nat
  colno : Nat
  msg : String
deriving DecidableEq, Repr

/-- Helper for `pyReadlines`: splits a character stream at newlines, keeping
each terminator with its line, producing no trailing empty line. -/
def readlinesAux : List Char → List Char → List String
  | [], [] => []
  | [], a :: as => [String.mk (a :: as).reverse]
  | c :: rest, acc =>
    if c = '\n' then String.mk (acc.reverse ++ ['\n']) :: readlinesAux rest []
    else readlinesAux rest (c :: acc)

/-- Python `f.readlines()`: the lines of a document with their newline
terminators; the empty document yields no lines. -/
def pyReadlines (doc : String) : List String := readlinesAux doc.data []

/-- The excerpt window of line 25: `lines[max(0, lineno-3):lineno+2]`
(Python slice semantics; `Nat` subtraction supplies the clamp at 0). -/
def excerptLines (lines : List String) (lineno : Nat) : List String :=
  (lines.take (lineno + 2)).drop (lineno - 3)

/-- The excerpt string displayed by `st.code` on a parse error:
`"".join(lines[max(0, e.lineno-3):e.lineno+2])`. -/
def excerpt (lines : List String) (lineno : Nat) : String :=
  String.join (excerptLines lines lineno)

/-- Embeds `load_data` seen from its caller: a successful parse yields the
normalized table, a `JSONDecodeError` yields the empty frame (line 26). -/
def loadData (res : Except JSONError (List RawRow)) : List Row :=
  match res with
  | Except.ok rows => normalizeRows rows
  | Except.error _ => []

/-- The top-level dispatch (line 84): the aggregate computations run only
when the loaded frame is nonempty; on an empty frame the page shows an
error and computes nothing. -/
def appCompute (res : Except JSONError (List RawRow)) (selected : List String)
    (startD endD : Date) : Option AppOutput :=
  let df := loadData res
  if df.isEmpty then none else some (appRender df selected startD endD)

/-- Two releases by one organization, 60 days apart (the dataset of the
spec's cadence example). -/
def exRawCadence : List RawRow :=
  [⟨"A", some "Org1", some "2024-01-15"⟩,
   ⟨"B", some "Org1", some "2024-03-15"⟩]

/-- Its normalized table. -/
def exTableCadence : List Row := normalizeRows exRawCadence

/-- A raw input holding one row with a missing organization and one row with
an unparseable release date. -/
def exInputQuality : List RawRow :=
  [⟨"A", none, some "2024-01-15"⟩,
   ⟨"B", some "X", some "bad"⟩]

/-- A table with a single row whose organization is present but empty. -/
def exInputEmptyOrg : List RawRow := [⟨"A", some "", some "2024-01-15"⟩]

/-- The release-cycle triple the app computes for a company, written as a
closed formula over the unfiltered table: the span from the dataset's last
release back to the company's first release, divided by the company's model
count. -/
def cycleFormula (t : List Row) (c : String) : ℚ × ℤ × ℤ :=
  let companyRows := t.filter fun r => r.organization == c
  let firstDays := listMinInt (companyRows.map fun r => r.releaseDate.toDays)
  let avg : ℚ := Rat.divInt (lastReleaseDays t - firstDays) (companyRows.length : Int)
  (avg, monthsOf avg, daysOf avg)

/-- Filtering with the same predicate twice is the same as filtering once. -/
lemma filter_self_idem {α : Type} (p : α → Bool) (l : List α) :
    (l.filter p).filter p = l.filter p := by
  induction l with
  | nil => rfl
  | cons a l ih =>
    by_cases h : p a = true
    · simp [List.filter_cons, h, ih]
    · simp [List.filter_cons, h, ih]

/-- C3. The spec claims the counts of rows dropped for unparseable dates and
of rows with missing organization are reported as advisory warnings.  The
code computes both counts on the already-normalized frame (after `dropna`
and `fillna`), so the reported counts are zero for every input; on the
concrete input `exInputQuality` one row has a missing organization and one
row is dropped for an unparseable date, yet both reported counts are 0 and
neither warning can fire. -/
theorem dataQuality_warnings_always_zero :
    (∀ rows : List RawRow,
      missingOrgsReported (loadFrame rows) = 0 ∧
      missingDatesReported (loadFrame rows) = 0) ∧
    rawMissingOrgs exInputQuality = 1 ∧
    exInputQuality.length - (loadFrame exInputQuality).length = 1 ∧
    missingOrgsReported (loadFrame exInputQuality) = 0 ∧
    missingDatesReported (loadFrame exInputQuality) = 0 := by
  refine ⟨fun rows => ⟨?_, ?_⟩, by decide, by decide, by decide, by decide⟩
  · rw [missingOrgsReported, List.countP_eq_zero]
    intro a ha
    rw [loadFrame] at ha
    rcases List.mem_map.mp ha with ⟨r, _, hr⟩
    simp [← hr]
  · rw [missingDatesReported, List.countP_eq_zero]
    intro a ha
    rw [loadFrame] at ha
    rcases List.mem_map.mp ha with ⟨r, hrmem, hr⟩
    rcases List.mem_filter.mp hrmem with ⟨_, hsome⟩
    simp only [← hr]
    simpa [Option.isSome_iff_ne_none] using hsome

/-- C4 counterexample. The claim says a retained row with an *empty*
organization string receives the sentinel `"Unknown"`; the code's
`fillna('Unknown')` fills only missing values, so the empty string is kept
as-is. -/
theorem normalizeRows_keeps_empty_org :
    normalizeRows exInputEmptyOrg =
      [{ model := "A", organization := "", releaseDate := ⟨2024, 1, 15⟩,
         yearMonth := "2024-01" }] ∧ ("" : String) ≠ "Unknown" := by
  constructor
  · rfl
  · decide

/-- C4 (amended). Normalization drops exactly the rows whose release date
fails to parse as `YYYY-MM-DD`, keeps the remaining rows in input order, and
maps each retained row through `normRowOf`: the organization becomes
`Option.getD _ "Unknown"` — the sentinel is substituted only when the
organization is absent, a present-but-empty string is retained — and
`yearMonth` is the `YYYY-MM` rendering of the parsed date. -/
theorem normalizeRows_characterization :
    ∀ rows : List RawRow,
      normalizeRows rows =
        (rows.filter fun raw => (raw.releaseDate.bind parseDate).isSome).map
          normRowOf := by
  intro rows
  induction rows with
  | nil => rfl
  | cons raw rest ih =>
    cases h : raw.releaseDate.bind parseDate with
    | none =>
      rw [normalizeRows, List.filterMap_cons,
        List.filter_cons_of_neg (by rw [h]; simp)]
      simp only [h, Option.map_none']
      exact ih
    | some d =>
      rw [normalizeRows, List.filterMap_cons,
        List.filter_cons_of_pos (by rw [h]; simp)]
      simp only [h, Option.map_some', List.map_cons, List.cons.injEq]
      exact ⟨by simp only [normRowOf, h], ih⟩

/-- C5. With an empty company selection the filter applies only the
date-range test: the result is exactly the rows whose release date lies in
`[start, end]` inclusive, every organization included. -/
theorem filterTable_empty_selection_includes_all :
    ∀ (t : List Row) (a b : Date),
      filterTable t [] a b =
        (t.filter fun r => dateLeB a r.releaseDate && dateLeB r.releaseDate b) ∧
      ∀ r : Row, r ∈ filterTable t [] a b ↔
        r ∈ t ∧ (dateLeB a r.releaseDate && dateLeB r.releaseDate b) = true := by
  intro t a b
  constructor
  · rfl
  · intro r
    exact List.mem_filter

/-- C6. Filtering is idempotent: applying the same selection and date range
twice returns the same table as applying it once.  (The embedding is a pure
function on lists, matching the source, where boolean-mask indexing builds a
new frame and leaves its input unchanged.) -/
theorem filterTable_idempotent :
    ∀ (t : List Row) (S : List String) (a b : Date),
      filterTable (filterTable t S a b) S a b = filterTable t S a b := by
  intro t S a b
  cases hS : S.isEmpty
  · simp [filterTable, hS, filter_self_idem]
  · simp [filterTable, hS, filter_self_idem]

/-- C10. The cadence figures (per-company triples and the overall pair) are
computed from the full loaded table before the user filters are applied:
any two choices of company selection and date range give identical cadence
output. -/
theorem cadence_independent_of_filters :
    ∀ (t : List Row) (S₁ S₂ : List String) (a₁ b₁ a₂ b₂ : Date),
      (appRender t S₁ a₁ b₁).overallCycleOut =
        (appRender t S₂ a₂ b₂).overallCycleOut ∧
      (appRender t S₁ a₁ b₁).companyCyclesOut =
        (appRender t S₂ a₂ b₂).companyCyclesOut :=
  fun _ _ _ _ _ _ _ => ⟨rfl, rfl⟩

/-- Membership in `multiModelOrgs` from a model count of at least two. -/
lemma mem_multiModelOrgs (t : List Row) (c : String)
    (h2 : 2 ≤ t.countP fun r => r.organization == c) : c ∈ multiModelOrgs t := by
  rw [multiModelOrgs]
  apply List.mem_filter.mpr
  refine ⟨?_, by simp only [decide_eq_true_eq]; omega⟩
  apply List.mem_dedup.mpr
  have hpos : 0 < t.countP fun r => r.organization == c := by omega
  rcases List.countP_pos_iff.mp hpos with ⟨r, hr, hre⟩
  exact List.mem_map.mpr ⟨r, hr, by simpa using hre⟩

/-- For a multi-model organization, restricting `df_filtered` to that
organization gives the same rows as restricting the full table. -/
lemma dfFiltered_filter_eq (t : List Row) (c : String)
    (hc : c ∈ multiModelOrgs t) :
    (dfFiltered t).filter (fun r => r.organization == c) =
      t.filter (fun r => r.organization == c) := by
  rw [dfFiltered, List.filter_filter]
  apply List.filter_congr
  intro r _
  by_cases h : r.organization = c
  · simp [h, hc]
  · simp [h]

/-- C1 counterexample. On the spec's own cadence example (a single
organization releasing on 2024-01-15 and 2024-03-15, 60 days apart) the
code computes `average_cycle = (last - first).days / num_models = 60 / 2 =
30`, hence months `1` and remainder `0` — not the claimed mean of
consecutive differences `60` with months `2`. -/
theorem cadence_example_not_consecutive_mean :
    companyCycles exTableCadence = [("Org1", ((30 : ℚ), (1 : ℤ), (0 : ℤ)))] ∧
    ((30 : ℚ), (1 : ℤ), (0 : ℤ)) ≠ ((60 : ℚ), (2 : ℤ), (0 : ℤ)) := by
  constructor
  · decide
  · decide

/-- C1 (amended). For every organization with at least two rows, the app's
per-company entry is `cycleFormula`: meanDays is the span from the
dataset-wide last release date back to the organization's first release,
divided by the organization's model count (not the mean of consecutive
differences), with `months = floor(meanDays / 30)` and `remainderDays =
floor(meanDays mod 30)`; on the two-release example this gives
`(30, 1, 0)`. -/
theorem cadence_code_formula (t : List Row) (c : String)
    (h2 : 2 ≤ t.countP fun r => r.organization == c) :
    (c, cycleFormula t c) ∈ companyCycles t := by
  have hc : c ∈ multiModelOrgs t := mem_multiModelOrgs t c h2
  have hpos : 0 < t.countP fun r => r.organization == c := by omega
  rcases List.countP_pos_iff.mp hpos with ⟨r, hr, hre⟩
  have hro : r.organization = c := by simpa using hre
  have hrf : r ∈ dfFiltered t := by
    rw [dfFiltered]
    exact List.mem_filter.mpr ⟨hr, by simp [hro, hc]⟩
  have hmem : c ∈ companiesOf (dfFiltered t) :=
    List.mem_dedup.mpr (List.mem_map.mpr ⟨r, hrf, hro⟩)
  apply List.mem_filterMap.mpr
  refine ⟨c, hmem, ?_⟩
  have hlen : (t.filter fun r => r.organization == c).length =
      t.countP fun r => r.organization == c :=
    (List.countP_eq_length_filter _ _).symm
  rw [calculateReleaseCycle, dfFiltered_filter_eq t c hc, if_pos (by omega)]
  rfl

/-- C1 witness: the amended formula instantiated on the two-release example. -/
theorem cadence_code_formula_witness :
    2 ≤ exTableCadence.countP (fun r => r.organization == "Org1") ∧
    ("Org1", cycleFormula exTableCadence "Org1") ∈ companyCycles exTableCadence :=
  ⟨by decide, cadence_code_formula exTableCadence "Org1" (by decide)⟩

/-- C2 counterexample. On a table whose releases fall in 2024-01 and
2024-03 only, the month 2024-02 lies strictly inside the observed month
range yet appears in no key of the monthly aggregate: `unstack(fill_value=0)`
zero-fills only over months that occur in some row, so a month with no
releases at all is a gap, contradicting the claimed cross product over the
full observed month range. -/
theorem monthlyKeys_gap_in_range :
    "2024-01" ∈ observedMonths exTableCadence ∧
    "2024-03" ∈ observedMonths exTableCadence ∧
    ("2024-01" : String) < "2024-02" ∧ ("2024-02" : String) < "2024-03" ∧
    "Org1" ∈ observedOrgs exTableCadence ∧
    ("2024-02", "Org1") ∉ monthlyKeys exTableCadence := by
  refine ⟨by decide, by decide, ?_, ?_, by decide, by decide⟩
  · rw [String.lt_iff_toList_lt]; decide
  · rw [String.lt_iff_toList_lt]; decide

/-- C2 (amended). The keys of the monthly aggregate are exactly the cross
product of the months occurring in some row and the organizations occurring
in some row (so a combination with no releases is still keyed, with count
zero — but a month in which no organization released anything is absent
altogether); every cell either has count zero or corresponds to at least
one row of its month and organization. -/
theorem monthlyKeys_cross_product (t : List Row) (m o : String) :
    ((m, o) ∈ monthlyKeys t ↔
      (∃ r ∈ t, r.yearMonth = m) ∧ (∃ r ∈ t, r.organization = o)) ∧
    (monthlyCount t m o = 0 ∨ ∃ r ∈ t, r.yearMonth = m ∧ r.organization = o) := by
  constructor
  · constructor
    · intro hmem
      rcases List.mem_flatMap.mp hmem with ⟨m', hm', hmo⟩
      rcases List.mem_map.mp hmo with ⟨o', ho', heq⟩
      have hm2 : m' = m := congrArg Prod.fst heq
      have ho2 : o' = o := congrArg Prod.snd heq
      subst hm2; subst ho2
      constructor
      · rcases List.mem_map.mp (List.mem_dedup.mp hm') with ⟨r, hr, hrm⟩
        exact ⟨r, hr, hrm⟩
      · rcases List.mem_map.mp (List.mem_dedup.mp ho') with ⟨r, hr, hro⟩
        exact ⟨r, hr, hro⟩
    · rintro ⟨⟨r1, hr1, hm⟩, ⟨r2, hr2, ho⟩⟩
      refine List.mem_flatMap.mpr ⟨m, ?_, List.mem_map.mpr ⟨o, ?_, rfl⟩⟩
      · exact List.mem_dedup.mpr (List.mem_map.mpr ⟨r1, hr1, hm⟩)
      · exact List.mem_dedup.mpr (List.mem_map.mpr ⟨r2, hr2, ho⟩)
  · by_cases hc : monthlyCount t m o = 0
    · exact Or.inl hc
    · right
      have hpos : 0 < monthlyCount t m o := Nat.pos_of_ne_zero hc
      rcases List.countP_pos_iff.mp hpos with ⟨r, hr, hre⟩
      refine ⟨r, hr, ?_⟩
      simpa [Bool.and_eq_true, beq_iff_eq] using hre

/-- One row contributes exactly one cell to a sum of indicator counts over
finsets that contain its month and organization. -/
lemma cell_indicator_sum (M O : Finset String) (a b : String)
    (ha : a ∈ M) (hb : b ∈ O) :
    (∑ m ∈ M, ∑ o ∈ O, if a = m ∧ b = o then (1 : ℕ) else 0) = 1 := by
  have h1 : ∀ m : String,
      (∑ o ∈ O, if a = m ∧ b = o then (1 : ℕ) else 0) =
        if a = m then 1 else 0 := by
    intro m
    by_cases hm : a = m
    · simp only [hm, true_and]
      rw [Finset.sum_ite_eq O b fun _ => (1 : ℕ)]
      simp [hb]
    · simp [hm]
  rw [Finset.sum_congr rfl fun m _ => h1 m,
    Finset.sum_ite_eq M a fun _ => (1 : ℕ)]
  simp [ha]

/-- Summing the per-cell group counts over any finsets covering the table's
months and organizations counts every row exactly once. -/
lemma countP_cell_sum (t : List Row) (M O : Finset String)
    (h : ∀ r ∈ t, r.yearMonth ∈ M ∧ r.organization ∈ O) :
    (∑ m ∈ M, ∑ o ∈ O,
      t.countP fun r => r.yearMonth == m && r.organization == o) = t.length := by
  induction t with
  | nil => simp
  | cons r t ih =>
    have hr := h r (List.mem_cons_self r t)
    have ht : ∀ x ∈ t, x.yearMonth ∈ M ∧ x.organization ∈ O :=
      fun x hx => h x (List.mem_cons_of_mem r hx)
    simp only [List.countP_cons]
    rw [Finset.sum_congr rfl fun m _ => Finset.sum_add_distrib,
      Finset.sum_add_distrib, ih ht]
    have hind : (∑ m ∈ M, ∑ o ∈ O,
        if (r.yearMonth == m && r.organization == o) = true then (1 : ℕ) else 0) = 1 := by
      have hconv : ∀ (m o : String),
          (if (r.yearMonth == m && r.organization == o) = true then (1 : ℕ) else 0) =
            if r.yearMonth = m ∧ r.organization = o then 1 else 0 := by
        intro m o
        simp [Bool.and_eq_true, beq_iff_eq]
      rw [Finset.sum_congr rfl fun m _ => Finset.sum_congr rfl fun o _ => hconv m o]
      exact cell_indicator_sum M O r.yearMonth r.organization hr.1 hr.2
    rw [hind]
    simp

/-- C7. Summing the monthly aggregate over all its (month, organization)
cells gives back the number of rows of the table: grouping partitions the
rows and the zero-fill adds nothing. -/
theorem monthlyCounts_sum_eq_length (t : List Row) :
    (∑ m ∈ (observedMonths t).toFinset, ∑ o ∈ (observedOrgs t).toFinset,
      monthlyCount t m o) = t.length := by
  simp only [monthlyCount]
  apply countP_cell_sum
  intro r hr
  constructor
  · exact List.mem_toFinset.mpr (List.mem_dedup.mpr (List.mem_map.mpr ⟨r, hr, rfl⟩))
  · exact List.mem_toFinset.mpr (List.mem_dedup.mpr (List.mem_map.mpr ⟨r, hr, rfl⟩))

/-- C9. An organization with fewer than two releases never appears in the
per-company cadence table; when no organization qualifies the overall pair
is reported as `(0, 0)`; otherwise the overall pair is the 30-day split of
the unweighted mean of the included per-company average cycles. -/
theorem cadence_exclusion_and_overall (t : List Row) (c : String) :
    ((t.countP fun r => r.organization == c) < 2 →
      c ∉ (companyCycles t).map Prod.fst) ∧
    (companyCycles t = [] → overallCycle t = (0, 0)) ∧
    (companyCycles t ≠ [] →
      overallCycle t = (monthsOf (overallMean t), daysOf (overallMean t))) := by
  refine ⟨?_, ?_, ?_⟩
  · intro hlt hmem
    rcases List.mem_map.mp hmem with ⟨p, hp, hfst⟩
    rcases List.mem_filterMap.mp hp with ⟨comp, hcomp, hsome⟩
    rcases Option.map_eq_some'.mp hsome with ⟨v, _, hpv⟩
    have hcc : comp = c := by rw [← hfst, ← hpv]
    subst hcc
    rcases List.mem_map.mp (List.mem_dedup.mp hcomp) with ⟨r, hrf, hro⟩
    rcases List.mem_filter.mp hrf with ⟨_, hdec⟩
    have hin : r.organization ∈ multiModelOrgs t := by simpa using hdec
    rw [hro] at hin
    rcases List.mem_filter.mp hin with ⟨_, hcnt⟩
    have : 1 < t.countP fun r => r.organization == comp := by simpa using hcnt
    omega
  · intro h
    simp [overallCycle, companyAvgCycles, h]
  · intro h
    have hne : ¬(companyAvgCycles t).isEmpty = true := by
      simp [companyAvgCycles, List.isEmpty_iff, h]
    simp [overallCycle, hne]

/-- C9 witness: the exclusion instantiated for an absent organization on the
two-release example, the zero fallback on the empty table, and the overall
mean on the example. -/
theorem cadence_exclusion_and_overall_witness :
    ((exTableCadence.countP fun r => r.organization == "Org2") < 2 ∧
      "Org2" ∉ (companyCycles exTableCadence).map Prod.fst) ∧
    (companyCycles ([] : List Row) = [] ∧
      overallCycle ([] : List Row) = (0, 0)) ∧
    (companyCycles exTableCadence ≠ [] ∧
      overallCycle exTableCadence =
        (monthsOf (overallMean exTableCadence), daysOf (overallMean exTableCadence))) :=
  ⟨⟨by decide, (cadence_exclusion_and_overall exTableCadence "Org2").1 (by decide)⟩,
   ⟨rfl, (cadence_exclusion_and_overall ([] : List Row) "X").2.1 rfl⟩,
   ⟨by decide, (cadence_exclusion_and_overall exTableCadence "X").2.2 (by decide)⟩⟩

/-- A string with nonempty character data has positive length. -/
lemma length_pos_of_ne_empty (a : String) (h : a ≠ "") : 0 < a.length := by
  cases a with
  | mk l =>
    cases l with
    | nil => exact absurd rfl h
    | cons c cs => simp [String.length]

/-- Left-folding string concatenation never shrinks the accumulator. -/
lemma le_length_foldl_append (L : List String) :
    ∀ s : String, s.length ≤ (L.foldl (fun a b => a ++ b) s).length := by
  induction L with
  | nil => intro s; exact le_refl _
  | cons x L ih =>
    intro s
    have h1 : s.length ≤ (s ++ x).length := by rw [String.length_append]; omega
    exact le_trans h1 (ih (s ++ x))

/-- Joining a nonempty list of nonempty strings is nonempty. -/
lemma join_ne_empty_of (L : List String) (hL : L ≠ []) (h : ∀ l ∈ L, l ≠ "") :
    String.join L ≠ "" := by
  cases L with
  | nil => exact absurd rfl hL
  | cons a rest =>
    have ha : 0 < a.length := length_pos_of_ne_empty a (h a (List.mem_cons_self a rest))
    intro hcontra
    have h2 : ("" ++ a).length ≤ (String.join (a :: rest)).length :=
      le_length_foldl_append rest ("" ++ a)
    rw [hcontra, String.length_append] at h2
    simp at h2
    omega

/-- Function `readlines` yields at least one line unless both the pending accumulator
and the remaining input are empty. -/
lemma readlinesAux_ne_nil :
    ∀ (cs acc : List Char), acc ≠ [] ∨ cs ≠ [] → readlinesAux cs acc ≠ [] := by
  intro cs
  induction cs with
  | nil =>
    intro acc h
    cases acc with
    | nil =>
      rcases h with h | h
      · exact absurd rfl h
      · exact absurd rfl h
    | cons a as => simp [readlinesAux]
  | cons c rest ih =>
    intro acc _
    by_cases hc : c = '\n'
    · simp [readlinesAux, hc]
    · simp only [readlinesAux, if_neg hc]
      exact ih (c :: acc) (Or.inl (by simp))

/-- Every line produced by `readlines` is nonempty. -/
lemma readlinesAux_mem_ne :
    ∀ (cs acc : List Char) (l : String), l ∈ readlinesAux cs acc → l ≠ "" := by
  intro cs
  induction cs with
  | nil =>
    intro acc l hl
    cases acc with
    | nil => simp [readlinesAux] at hl
    | cons a as =>
      simp only [readlinesAux, List.mem_singleton] at hl
      subst hl
      intro hcontra
      have hdata := congrArg String.data hcontra
      simp at hdata
  | cons c rest ih =>
    intro acc l hl
    by_cases hc : c = '\n'
    · simp only [readlinesAux, if_pos hc] at hl
      rcases List.mem_cons.mp hl with h | h
      · subst h
        intro hcontra
        have hdata := congrArg String.data hcontra
        simp at hdata
      · exact ih [] l h
    · simp only [readlinesAux, if_neg hc] at hl
      exact ih (c :: acc) l hl

/-- The excerpt window only contains lines of the file. -/
lemma excerptLines_subset (lines : List String) (n : Nat) :
    excerptLines lines n ⊆ lines :=
  ((List.drop_sublist _ _).trans (List.take_sublist _ _)).subset

/-- For a fault line within the file (or just past its last line), the
excerpt window is nonempty. -/
lemma excerptLines_ne_nil (lines : List String) (n : Nat) (h0 : lines ≠ [])
    (h1 : 1 ≤ n) (h2 : n ≤ lines.length + 1) : excerptLines lines n ≠ [] := by
  have hpos : 0 < lines.length := List.length_pos.mpr h0
  have hlen : (excerptLines lines n).length =
      min (n + 2) lines.length - (n - 3) := by
    simp [excerptLines, List.length_drop, List.length_take]
  have hgt : 0 < (excerptLines lines n).length := by
    rw [hlen]
    rcases Nat.le_total (n + 2) lines.length with hle | hle
    · rw [min_eq_left hle]; omega
    · rw [min_eq_right hle]; omega
  exact List.length_pos.mp hgt

/-- C8 counterexample. The empty document is malformed JSON (Python reports
`Expecting value: line 1 column 1`), yet `readlines` yields no lines and the
displayed excerpt is the empty string — the claimed non-empty excerpt fails
there. -/
theorem excerpt_empty_for_empty_input :
    pyReadlines "" = [] ∧ excerpt (pyReadlines "") 1 = "" := ⟨rfl, rfl⟩

/-- C8 (amended). On any parse failure the app computes no aggregates and
proceeds with the empty frame; the excerpt spans from two lines before to
two lines after the 1-based fault line, clamped to the file, and is
non-empty whenever the document itself is non-empty (for the empty document
it is empty). -/
theorem parse_error_fallback_and_excerpt :
    ∀ (e : JSONError) (S : List String) (a b : Date) (doc : String),
      appCompute (Except.error e) S a b = none ∧
      (doc ≠ "" → 1 ≤ e.lineno → e.lineno ≤ (pyReadlines doc).length + 1 →
        excerpt (pyReadlines doc) e.lineno ≠ "") := by
  intro e S a b doc
  constructor
  · rfl
  · intro hdoc h1 h2
    have hne : pyReadlines doc ≠ [] := by
      rw [pyReadlines]
      apply readlinesAux_ne_nil
      exact Or.inr fun hdata => hdoc (String.ext (hdata.trans rfl))
    apply join_ne_empty_of
    · exact excerptLines_ne_nil (pyReadlines doc) e.lineno hne h1 h2
    · intro l hl
      exact readlinesAux_mem_ne doc.data [] l
        (excerptLines_subset (pyReadlines doc) e.lineno hl)

/-- C8 witness: a malformed one-line document with the fault on line 1. -/
theorem parse_error_fallback_witness :
    appCompute (Except.error ⟨1, 2, "Expecting value"⟩) [] ⟨2024, 1, 1⟩ ⟨2024, 1, 1⟩
      = none ∧
    excerpt (pyReadlines "[1,,2]") 1 ≠ "" :=
  ⟨(parse_error_fallback_and_excerpt ⟨1, 2, "Expecting value"⟩ [] ⟨2024, 1, 1⟩
      ⟨2024, 1, 1⟩ "[1,,2]").1,
   (parse_error_fallback_and_excerpt ⟨1, 2, "Expecting value"⟩ [] ⟨2024, 1, 1⟩
      ⟨2024, 1, 1⟩ "[1,,2]").2 (by decide) (by decide) (by decide)⟩
